import Mathlib

/-!
Verification development for the workflowo job runner.

The definitions below are a shallow embedding of the repository's Rust
sources, translated file by file:

* `Value` embeds the `serde_yaml::Value` tree consumed by the resolver
  and the parser (cases Null/Bool/Number/String/Sequence/Mapping/Tagged;
  numbers are modelled as `Int`, the only number operations the sources
  use are `as_i64` comparisons).  The tag stored in `tagged` includes
  the leading `!`, matching `tagged.tag.to_string()` in the sources.
* `renderV` and its helpers embed `src/yaml_parser/render.rs`.  The
  ambient effects of that module (the shared `_ids: HashMap`, stdin
  line reads, prompt printing) are threaded explicitly through an
  `RState` record; `RResult` distinguishes `Ok`, `Err` (an
  `anyhow::Error`, linearised to its context chain as a string),
  `panic!` (`fatal`) and fuel exhaustion (`fuelOut`).  Recursion is by
  explicit fuel; the Rust functions recurse structurally, so every
  terminating behaviour is reached at a large enough fuel.
-/

inductive Value where
  | null : Value
  | bool (b : Bool) : Value
  | number (n : Int) : Value
  | str (s : String) : Value
  | sequence (items : List Value) : Value
  | mapping (entries : List (Value × Value)) : Value
  | tagged (tag : String) (inner : Value) : Value

/-- Outcome of an embedded Rust computation: `ok`, a returned
`anyhow::Error` (`err`, linearised context chain), a `panic!`
(`fatal`), or fuel exhaustion of the embedding (`fuelOut`). -/
inductive RResult (α : Type) where
  | ok (a : α) : RResult α
  | err (msg : String) : RResult α
  | fatal (msg : String) : RResult α
  | fuelOut : RResult α

/-- Monadic bind for `RResult`. -/
def rbind {α β : Type} : RResult α → (α → RResult β) → RResult β
  | .ok a, g => g a
  | .err e, _ => .err e
  | .fatal m, _ => .fatal m
  | .fuelOut, _ => .fuelOut

/-- Embeds `anyhow`'s `.context(msg)`: wraps a returned error with an
outer message, leaves success and panics untouched. -/
def errCtx {α : Type} (c : String) : RResult α → RResult α
  | .err m => .err (c ++ ": " ++ m)
  | r => r

def RResult.isErrB {α : Type} : RResult α → Bool
  | .err _ => true
  | _ => false

def RResult.isFatalB {α : Type} : RResult α → Bool
  | .fatal _ => true
  | _ => false

/-- Ambient state of the resolution pass in `render.rs`: the shared
`_ids` cache (assoc list standing for the `HashMap`), the remaining
lines of interactive input, and the log of printed prompts. -/
structure RState where
  ids : List (String × Value)
  stdin : List String
  prompts : List String

/-- Embeds `get_entry(map, key)` from `yaml_parser/mod.rs`.  The source
compares full `Value` keys; every call site passes a string key, so the
embedding is specialised to string keys (an entry with a non-string key
never equals a string key). -/
def getEntryStr : List (Value × Value) → String → Option Value
  | [], _ => none
  | (k, v) :: rest, key =>
    match k with
    | .str s => if s = key then some v else getEntryStr rest key
    | _ => getEntryStr rest key

/-- Lookup in the `_ids` cache (`HashMap::get`/`contains_key`). -/
def lookupA : List (String × Value) → String → Option Value
  | [], _ => none
  | (k, v) :: rest, key => if k = key then some v else lookupA rest key

/-- Insert into the `_ids` cache (`HashMap::insert`): the new binding
shadows any older one, matching the map's overwrite semantics at the
level of `lookupA`. -/
def insertA (l : List (String × Value)) (k : String) (v : Value) :
    List (String × Value) :=
  (k, v) :: l

/-- Embeds the linebreak-stripping loop of `render_tag_input`
(`while input.ends_with('\n') || input.ends_with('\r') \x7b remove last \x7d`):
all trailing newline and carriage-return characters are removed. -/
def trimNewlines (s : String) : String :=
  ⟨(s.data.reverse.dropWhile (fun c => c == '\n' || c == '\r')).reverse⟩

/-- One `read_line` from the modelled interactive input: at end of
input the read returns the empty string, like `read_line` at EOF. -/
def readLine : List String → String × List String
  | [] => ("", [])
  | l :: ls => (l, ls)

/-- Embeds the `(prompt, default)` shape analysis of
`render_tag_input` in `render.rs` (string / 1-2 element sequence /
mapping with `prompt` and optional `default`). -/
def inputShape : Value → RResult (String × Option String)
  | .str p => .ok (p, none)
  | .sequence l =>
    match l with
    | [a] =>
      match a with
      | .str p => .ok (p, none)
      | _ => .err "Input prompt is not a valid string"
    | [a, b] =>
      match a with
      | .str p =>
        match b with
        | .str d => .ok (p, some d)
        | _ => .err "Input default value is not a valid string"
      | _ => .err "Input prompt is not a valid string"
    | _ => .err ("!Input and !HiddenInput take 1 or 2 arguments but got "
        ++ toString l.length)
  | .mapping entries =>
    match getEntryStr entries "prompt" with
    | some pv =>
      match pv with
      | .str p =>
        match getEntryStr entries "default" with
        | some dv =>
          match dv with
          | .str d => .ok (p, some d)
          | _ => .err "default is not of type string"
        | none => .ok (p, none)
      | _ => .err "prompt is not of type string"
    | none => .err "prompt was not provided in !Input"
  | _ => .err "Input prompt is not a valid string, sequence or map"

/-- Embeds the `id` extraction of `render_tag_id` in `render.rs`. -/
def idOfTagValue : Value → RResult String
  | .mapping entries =>
    match getEntryStr entries "id" with
    | some idv =>
      match idv with
      | .str s => .ok s
      | _ => .err "!Id tag id is not of type string"
    | none => .err "id key not given in id map"
  | .sequence l =>
    match l with
    | [] => .err "!Id tag is missing its id"
    | a :: _ =>
      match a with
      | .str s => .ok s
      | _ => .err "invalid !Id tag id value. Value is not a string."
  | _ => .err "!Id value needs to be a map or sequence!"

/-- Embeds the `id_value` extraction of `render_tag_id` in
`render.rs` (the message for a missing `value` key in the map form is
the source's own, reused, `id key not given in id map`). -/
def valueOfTagValue : Value → RResult Value
  | .mapping entries =>
    match getEntryStr entries "value" with
    | some v => .ok v
    | none => .err "id key not given in id map"
  | .sequence l =>
    match l with
    | _ :: b :: _ => .ok b
    | _ => .err "!Id tag is missing its value"
  | _ => .err "!Id value needs to be a map or sequence!"

/-- Embeds the per-value loop of `render` over a `Mapping`: only the
mapping's values are rendered, in entry order; keys are untouched.
`r` is the recursive call to `render` at the next fuel level. -/
def renderMapWith (r : RState → Value → RResult (Value × RState)) :
    RState → List (Value × Value) → RResult (List (Value × Value) × RState)
  | st, [] => .ok ([], st)
  | st, (k, x) :: rest =>
    rbind (r st x) fun p =>
      rbind (renderMapWith r p.2 rest) fun q =>
        .ok ((k, p.1) :: q.1, q.2)

/-- Embeds the per-item loop of `render` over a `Sequence`. -/
def renderSeqWith (r : RState → Value → RResult (Value × RState)) :
    RState → List Value → RResult (List Value × RState)
  | st, [] => .ok ([], st)
  | st, x :: rest =>
    rbind (r st x) fun p =>
      rbind (renderSeqWith r p.2 rest) fun q =>
        .ok (p.1 :: q.1, q.2)

/-- Embeds the element loop of `render_tag_strf`: each element is
rendered, must be a string (else `panic!`), and the strings are
concatenated in order. -/
def strfFoldWith (r : RState → Value → RResult (Value × RState)) :
    RState → List Value → RResult (String × RState)
  | st, [] => .ok ("", st)
  | st, v :: vs =>
    rbind (r st v) fun p =>
      match p.1 with
      | .str s =>
        rbind (strfFoldWith r p.2 vs) fun q => .ok (s ++ q.1, q.2)
      | _ => .fatal "StringF needs to be a sequence of strings"

/-- Embeds `render_tag_strf`: a non-sequence payload is a `panic!` in
the source, not a returned error. -/
def renderStrfWith (r : RState → Value → RResult (Value × RState))
    (st : RState) (tv : Value) : RResult (Value × RState) :=
  match tv with
  | .sequence l =>
    rbind (strfFoldWith r st l) fun q => .ok (.str q.1, q.2)
  | _ => .fatal "StringF needs to be a sequence of Strings"

/-- Embeds `render_tag_input`: the payload is first rendered, then
shape-checked; the prompt is printed (appended to the prompt log,
twice for the hidden variant, mirroring `print!` plus `rpassword`'s
own prompt), one line is read, trailing newlines are stripped, and an
empty read is replaced by the default when one is present. -/
def renderInputWith (r : RState → Value → RResult (Value × RState))
    (st : RState) (tv : Value) (hidden : Bool) : RResult (Value × RState) :=
  rbind (r st tv) fun p =>
    rbind (inputShape p.1) fun pd =>
      let prompt := pd.1
      let stP := { p.2 with prompts := p.2.prompts ++ [prompt] }
      let line := (readLine stP.stdin).1
      let rest := (readLine stP.stdin).2
      let st2 :=
        if hidden then
          { stP with prompts := stP.prompts ++ [prompt], stdin := rest }
        else
          { stP with stdin := rest }
      let trimmed := trimNewlines line
      let final :=
        match pd.2 with
        | some d => if trimmed = "" then d else trimmed
        | none => trimmed
      .ok (.str final, st2)

/-- Embeds `render_tag_id`: id and value payload are extracted first;
on a cache hit the cached value is returned with the state untouched
(the payload's value is never rendered); on a miss the value is
rendered, stored under the id, and the freshly stored entry is
returned (`_ids.get(&id).unwrap()`). -/
def renderIdWith (r : RState → Value → RResult (Value × RState))
    (st : RState) (tv : Value) : RResult (Value × RState) :=
  rbind (idOfTagValue tv) fun id =>
    rbind (valueOfTagValue tv) fun w =>
      match lookupA st.ids id with
      | some v => .ok (v, st)
      | none =>
        rbind (r st w) fun q =>
          let ids2 := insertA q.2.ids id q.1
          match lookupA ids2 id with
          | some res => .ok (res, { q.2 with ids := ids2 })
          | none => .fatal "called Option.unwrap on a None value"

/-- Embeds `render` from `render.rs`, with explicit fuel: mappings and
sequences are rendered child by child in order (depth-first,
mapping-value-then-sequence-element); a tagged node is dispatched on
its tag and replaced by the rendered result (`std::mem::swap`); plain
scalars are left unchanged. -/
def renderV : Nat → RState → Value → RResult (Value × RState)
  | 0, _, _ => .fuelOut
  | f + 1, st, v =>
    match v with
    | .mapping entries =>
      rbind (renderMapWith (renderV f) st entries) fun p =>
        .ok (.mapping p.1, p.2)
    | .sequence items =>
      rbind (renderSeqWith (renderV f) st items) fun p =>
        .ok (.sequence p.1, p.2)
    | .tagged tag inner =>
      match tag with
      | "!Input" =>
        errCtx "failed to resolve !Input" (renderInputWith (renderV f) st inner false)
      | "!HiddenInput" =>
        errCtx "failed to resolve !HiddenInput" (renderInputWith (renderV f) st inner true)
      | "!StrF" =>
        errCtx "failed to resolve !StrF" (renderStrfWith (renderV f) st inner)
      | "!Id" =>
        errCtx "failed to resolve !Id" (renderIdWith (renderV f) st inner)
      | _ => .err (tag ++ " is not a valid tag")
    | other => .ok (other, st)

/-! ### Basic facts about the embedding monad and the id cache -/

theorem rbind_eq_ok {α β : Type} {r : RResult α} {g : α → RResult β} {b : β}
    (h : rbind r g = .ok b) : ∃ a, r = .ok a ∧ g a = .ok b := by
  cases r with
  | ok a => exact ⟨a, rfl, h⟩
  | err e => simp [rbind] at h
  | fatal m => simp [rbind] at h
  | fuelOut => simp [rbind] at h

theorem errCtx_eq_ok {α : Type} {c : String} {r : RResult α} {x : α}
    (h : errCtx c r = .ok x) : r = .ok x := by
  cases r <;> simp_all [errCtx]

theorem errCtx_ok {α : Type} (c : String) (x : α) :
    errCtx c (.ok x) = .ok x := rfl

/-- Bindings visible in the id cache of `st` are still visible in the
id cache of `st2`. -/
def IdsPreserved (st st2 : RState) : Prop :=
  ∀ i x, lookupA st.ids i = some x → lookupA st2.ids i = some x

theorem idsPreserved_refl {st : RState} : IdsPreserved st st :=
  fun _ _ h => h

theorem idsPreserved_trans {a b c : RState}
    (h1 : IdsPreserved a b) (h2 : IdsPreserved b c) : IdsPreserved a c :=
  fun i x hx => h2 i x (h1 i x hx)

theorem lookupA_cons_ne {k i : String} {v : Value} {l : List (String × Value)}
    (h : ¬ k = i) : lookupA ((k, v) :: l) i = lookupA l i := by
  simp [lookupA, h]

theorem renderMapWith_preserves
    (r : RState → Value → RResult (Value × RState))
    (hr : ∀ st v q, r st v = .ok q → IdsPreserved st q.2) :
    ∀ l st q, renderMapWith r st l = .ok q → IdsPreserved st q.2 := by
  intro l
  induction l with
  | nil =>
    intro st q h
    simp only [renderMapWith] at h
    cases h
    exact idsPreserved_refl
  | cons e rest ih =>
    obtain ⟨k, x⟩ := e
    intro st q h
    simp only [renderMapWith] at h
    obtain ⟨a, ha, h2⟩ := rbind_eq_ok h
    obtain ⟨b, hb, h3⟩ := rbind_eq_ok h2
    cases h3
    exact idsPreserved_trans (hr st x a ha) (ih a.2 b hb)

theorem renderSeqWith_preserves
    (r : RState → Value → RResult (Value × RState))
    (hr : ∀ st v q, r st v = .ok q → IdsPreserved st q.2) :
    ∀ l st q, renderSeqWith r st l = .ok q → IdsPreserved st q.2 := by
  intro l
  induction l with
  | nil =>
    intro st q h
    simp only [renderSeqWith] at h
    cases h
    exact idsPreserved_refl
  | cons x rest ih =>
    intro st q h
    simp only [renderSeqWith] at h
    obtain ⟨a, ha, h2⟩ := rbind_eq_ok h
    obtain ⟨b, hb, h3⟩ := rbind_eq_ok h2
    cases h3
    exact idsPreserved_trans (hr st x a ha) (ih a.2 b hb)

theorem strfFoldWith_preserves
    (r : RState → Value → RResult (Value × RState))
    (hr : ∀ st v q, r st v = .ok q → IdsPreserved st q.2) :
    ∀ l st q, strfFoldWith r st l = .ok q → IdsPreserved st q.2 := by
  intro l
  induction l with
  | nil =>
    intro st q h
    simp only [strfFoldWith] at h
    cases h
    exact idsPreserved_refl
  | cons x rest ih =>
    intro st q h
    simp only [strfFoldWith] at h
    obtain ⟨a, ha, h2⟩ := rbind_eq_ok h
    split at h2
    · obtain ⟨b, hb, h3⟩ := rbind_eq_ok h2
      cases h3
      exact idsPreserved_trans (hr st x a ha) (ih a.2 b hb)
    · simp at h2

theorem renderStrfWith_preserves
    (r : RState → Value → RResult (Value × RState))
    (hr : ∀ st v q, r st v = .ok q → IdsPreserved st q.2) :
    ∀ tv st q, renderStrfWith r st tv = .ok q → IdsPreserved st q.2 := by
  intro tv st q h
  cases tv <;> simp only [renderStrfWith] at h
  case sequence l =>
    obtain ⟨a, ha, h2⟩ := rbind_eq_ok h
    cases h2
    exact strfFoldWith_preserves r hr l st a ha
  all_goals simp_all

theorem renderInputWith_preserves
    (r : RState → Value → RResult (Value × RState))
    (hr : ∀ st v q, r st v = .ok q → IdsPreserved st q.2) :
    ∀ st tv hidden q, renderInputWith r st tv hidden = .ok q →
      IdsPreserved st q.2 := by
  intro st tv hidden q h
  simp only [renderInputWith] at h
  obtain ⟨a, ha, h2⟩ := rbind_eq_ok h
  obtain ⟨pd, hpd, h3⟩ := rbind_eq_ok h2
  cases hidden <;> simp only [if_true, if_false, Bool.false_eq_true] at h3 <;>
    cases h3 <;> exact fun i x hx => hr st tv a ha i x hx

theorem renderIdWith_preserves
    (r : RState → Value → RResult (Value × RState))
    (hr : ∀ st v q, r st v = .ok q → IdsPreserved st q.2) :
    ∀ st tv q, renderIdWith r st tv = .ok q → IdsPreserved st q.2 := by
  intro st tv q h
  simp only [renderIdWith] at h
  obtain ⟨id, hid, h2⟩ := rbind_eq_ok h
  obtain ⟨w, hw, h3⟩ := rbind_eq_ok h2
  cases hlk : lookupA st.ids id with
  | some v =>
    rw [hlk] at h3
    cases h3
    exact idsPreserved_refl
  | none =>
    rw [hlk] at h3
    obtain ⟨a, ha, h4⟩ := rbind_eq_ok h3
    simp only [insertA, lookupA, if_pos rfl] at h4
    cases h4
    intro i x hx
    by_cases hi : i = id
    · subst hi
      rw [hx] at hlk
      cases hlk
    · have h5 := hr _ _ _ ha i x hx
      calc lookupA ((id, a.1) :: a.2.ids) i
          = lookupA a.2.ids i := lookupA_cons_ne (fun hh => hi hh.symm)
        _ = some x := h5

/-- Bindings already in the id cache are never removed or overwritten
by a successful render pass: the first occurrence of an identifier
determines the cached value for the rest of the pass. -/
theorem renderV_preserves :
    ∀ f st v q, renderV f st v = .ok q → IdsPreserved st q.2 := by
  intro f
  induction f with
  | zero => intro st v q h; simp [renderV] at h
  | succ f ih =>
    intro st v q h
    cases v with
    | mapping entries =>
      simp only [renderV] at h
      obtain ⟨a, ha, h2⟩ := rbind_eq_ok h
      cases h2
      exact renderMapWith_preserves _ ih entries st a ha
    | sequence items =>
      simp only [renderV] at h
      obtain ⟨a, ha, h2⟩ := rbind_eq_ok h
      cases h2
      exact renderSeqWith_preserves _ ih items st a ha
    | tagged tag inner =>
      simp only [renderV] at h
      split at h
      · exact renderInputWith_preserves _ ih _ _ _ _ (errCtx_eq_ok h)
      · exact renderInputWith_preserves _ ih _ _ _ _ (errCtx_eq_ok h)
      · exact renderStrfWith_preserves _ ih _ _ _ (errCtx_eq_ok h)
      · exact renderIdWith_preserves _ ih _ _ _ (errCtx_eq_ok h)
      · simp at h
    | null => simp only [renderV] at h; cases h; exact idsPreserved_refl
    | bool b => simp only [renderV] at h; cases h; exact idsPreserved_refl
    | number n => simp only [renderV] at h; cases h; exact idsPreserved_refl
    | str s => simp only [renderV] at h; cases h; exact idsPreserved_refl

/-! ### Claim C1: Id memoization -/

def emptyState : RState := ⟨[], [], []⟩

/-- On a cache hit, `render_tag_id` returns the cached value and the
state (cache, stdin, prompt log) is completely untouched: the payload
value is not rendered. -/
theorem renderV_id_cache_hit (f : Nat) (st : RState) (tv : Value)
    (i : String) (w v : Value)
    (hid : idOfTagValue tv = .ok i) (hw : valueOfTagValue tv = .ok w)
    (hv : lookupA st.ids i = some v) :
    renderV (f + 1) st (.tagged "!Id" tv) = .ok (v, st) := by
  simp [renderV, renderIdWith, hid, hw, hv, rbind, errCtx]

/-- Claim C1 (Id memoization): a successful render never removes or
overwrites a binding already present in the id cache, so the first
occurrence of an identifier in the depth-first, mapping-value-then-
sequence-element render order determines the cached value (first
conjunct); every later `!Id` node whose identifier is already cached
resolves to the cached value with the whole resolver state unchanged —
its own value payload is not evaluated, so no prompts and no side
effects arise from it (second conjunct); in particular a document
holding `!Id [id, "A"]` followed by `!Id [id, "B"]` resolves both
nodes to `"A"` (third conjunct). -/
theorem render_id_memoization :
    (∀ f st v out st2 i x, renderV f st v = .ok (out, st2) →
        lookupA st.ids i = some x → lookupA st2.ids i = some x)
    ∧ (∀ f st tv i w v, idOfTagValue tv = .ok i → valueOfTagValue tv = .ok w →
        lookupA st.ids i = some v →
        renderV (f + 1) st (.tagged "!Id" tv) = .ok (v, st))
    ∧ renderV 3 emptyState
        (.sequence [.tagged "!Id" (.sequence [.str "id", .str "A"]),
          .tagged "!Id" (.sequence [.str "id", .str "B"])])
      = .ok (.sequence [.str "A", .str "A"], ⟨[("id", .str "A")], [], []⟩) := by
  refine ⟨?_, ?_, ?_⟩
  · intro f st v out st2 i x h hx
    exact renderV_preserves f st v (out, st2) h i x hx
  · intro f st tv i w v hid hw hv
    exact renderV_id_cache_hit f st tv i w v hid hw hv
  · rfl

/-- Witness for C1: a cache hit at a concrete state and document,
with each hypothesis discharged by computation. -/
theorem render_id_memoization_witness :
    renderV 1 ⟨[("k", Value.str "A")], [], []⟩
        (.tagged "!Id" (.sequence [.str "k", .str "B"]))
      = .ok (.str "A", ⟨[("k", Value.str "A")], [], []⟩) :=
  render_id_memoization.2.1 0 ⟨[("k", Value.str "A")], [], []⟩
    (.sequence [.str "k", .str "B"]) "k" (Value.str "B") (Value.str "A")
    rfl rfl rfl

/-! ### Claim C5: StrF resolution -/

def Value.isSequenceB : Value → Bool
  | .sequence _ => true
  | _ => false

def Value.isStringB : Value → Bool
  | .str _ => true
  | _ => false

/-- The elements of a sequence render, one after the other with the
state threaded through, to the given strings. -/
inductive StrAll (f : Nat) : RState → List Value → List String → RState → Prop where
  | nil (st : RState) : StrAll f st [] [] st
  | cons {st : RState} {v : Value} {s : String} {st1 : RState} {vs : List Value}
      {ss : List String} {st2 : RState}
      (h : renderV f st v = .ok (.str s, st1)) (rest : StrAll f st1 vs ss st2) :
      StrAll f st (v :: vs) (s :: ss) st2

def concatStrings (l : List String) : String :=
  l.foldr (fun a b => a ++ b) ""

theorem strfFoldWith_of_strAll {f : Nat} :
    ∀ {st : RState} {l : List Value} {ss : List String} {st2 : RState},
      StrAll f st l ss st2 →
      strfFoldWith (renderV f) st l = .ok (concatStrings ss, st2) := by
  intro st l ss st2 h
  induction h with
  | nil st => rfl
  | cons h rest ih => simp [strfFoldWith, h, rbind, ih, concatStrings]

/-- Claim C5, amended: resolving a Tagged `StrF` node returns the
ordered concatenation of its elements' resolved strings when the
payload is a sequence each of whose elements renders to a string
(second conjunct); but when the payload is not a sequence (first
conjunct) or some element renders to a non-string (third conjunct),
the source `panic!`s — aborting the process — instead of returning a
`TypeError`/`ShapeError`. -/
theorem strf_resolution :
    (∀ f st v, v.isSequenceB = false →
        renderV (f + 1) st (.tagged "!StrF" v)
          = .fatal "StringF needs to be a sequence of Strings")
    ∧ (∀ f st l ss st2, StrAll f st l ss st2 →
        renderV (f + 1) st (.tagged "!StrF" (.sequence l))
          = .ok (.str (concatStrings ss), st2))
    ∧ (∀ f st v w st1 vs, renderV f st v = .ok (w, st1) →
        w.isStringB = false →
        renderV (f + 1) st (.tagged "!StrF" (.sequence (v :: vs)))
          = .fatal "StringF needs to be a sequence of strings") := by
  refine ⟨?_, ?_, ?_⟩
  · intro f st v hv
    cases v <;> first
      | rfl
      | exact absurd hv (by simp [Value.isSequenceB])
  · intro f st l ss st2 h
    simp [renderV, renderStrfWith, errCtx, rbind, strfFoldWith_of_strAll h]
  · intro f st v w st1 vs h hw
    cases w
    case str s => exact absurd hw (by simp [Value.isStringB])
    all_goals simp [renderV, renderStrfWith, strfFoldWith, rbind, h, errCtx]

/-- Counterexample for C5 as stated: at the concrete document
`!StrF "x"` the resolver panics (process abort) and does not return
an error value, contradicting the claim that a non-sequence payload
fails with a `TypeError`/`ShapeError` rather than aborting. -/
theorem strf_shape_panics_not_error :
    (renderV 1 emptyState (.tagged "!StrF" (.str "x"))).isFatalB = true
    ∧ (renderV 1 emptyState (.tagged "!StrF" (.str "x"))).isErrB = false :=
  ⟨rfl, rfl⟩

/-- Witness for C5 (amended): all three conjuncts applied at concrete
inputs. -/
theorem strf_resolution_witness :
    renderV 1 emptyState (.tagged "!StrF" (.bool true))
      = .fatal "StringF needs to be a sequence of Strings"
    ∧ renderV 2 emptyState (.tagged "!StrF" (.sequence [.str "foo", .str "bar"]))
      = .ok (.str "foobar", emptyState)
    ∧ renderV 2 emptyState (.tagged "!StrF" (.sequence [.number 3]))
      = .fatal "StringF needs to be a sequence of strings" :=
  ⟨strf_resolution.1 0 emptyState (.bool true) rfl,
   strf_resolution.2.1 1 emptyState [.str "foo", .str "bar"] ["foo", "bar"]
     emptyState (.cons rfl (.cons rfl (.nil emptyState))),
   strf_resolution.2.2 1 emptyState (.number 3) (.number 3) emptyState [] rfl rfl⟩

/-! ### Claim C9: Input default substitution -/

/-- Claim C9 (Input default substitution): resolving `!Input [p, d]`
reads one line, strips trailing newline/carriage-return characters,
and yields the default `d` exactly when the stripped line is empty,
the stripped line itself otherwise (first conjunct); `!HiddenInput`
behaves the same, with the prompt shown by both `print!` and the
masked reader (second conjunct); without a default the stripped line
is returned as is (third conjunct). -/
theorem input_default_substitution :
    (∀ f ids rest ps line p d,
        renderV (f + 3) ⟨ids, line :: rest, ps⟩
            (.tagged "!Input" (.sequence [.str p, .str d]))
          = .ok (.str (if trimNewlines line = "" then d else trimNewlines line),
              ⟨ids, rest, ps ++ [p]⟩))
    ∧ (∀ f ids rest ps line p d,
        renderV (f + 3) ⟨ids, line :: rest, ps⟩
            (.tagged "!HiddenInput" (.sequence [.str p, .str d]))
          = .ok (.str (if trimNewlines line = "" then d else trimNewlines line),
              ⟨ids, rest, ps ++ [p, p]⟩))
    ∧ (∀ f ids rest ps line p,
        renderV (f + 3) ⟨ids, line :: rest, ps⟩
            (.tagged "!Input" (.sequence [.str p]))
          = .ok (.str (trimNewlines line), ⟨ids, rest, ps ++ [p]⟩)) := by
  refine ⟨?_, ?_, ?_⟩ <;>
    intro f ids rest ps line p <;>
    try intro d
  all_goals
    simp [renderV, renderSeqWith, renderInputWith, inputShape, errCtx, rbind,
      readLine]

/-! ### Claim C2: Job fail-fast with context -/

/-- Error context attached by the modelled `Job::execute`: the failing
child's index, the job's name, and the child's own error. -/
structure JobErr where
  index : Nat
  jobName : String
  cause : String

/-- Modelled from the spec: the `Result`-returning `Job::execute` is
missing from `src` (the `tasks/mod.rs` and `lib.rs` snapshots there
predate error propagation and return `()`, while `main.rs` already
calls a `Result`-returning `job.execute()`).  Following the spec —
"iterates children in declaration order; on first child failure,
returns an error wrapping the child's index and the job's name as
context, aborting remaining siblings (fail-fast, sequential)" — each
child is modelled by its execution outcome; the returned list records
the indices of the children actually executed, in order. -/
def jobExecuteGo (name : String) : Nat → List (Except String Unit) →
    List Nat × Except JobErr Unit
  | _, [] => ([], .ok ())
  | i, c :: rest =>
    match c with
    | .ok _ =>
      match jobExecuteGo name (i + 1) rest with
      | (tr, r) => (i :: tr, r)
    | .error e => ([i], .error ⟨i, name, e⟩)

/-- Modelled from the spec: `Job::execute` starts at child index 0. -/
def jobExecute (name : String) (children : List (Except String Unit)) :
    List Nat × Except JobErr Unit :=
  jobExecuteGo name 0 children

theorem jobExecuteGo_replicate_err (name : String) :
    ∀ n i e post, jobExecuteGo name i (List.replicate n (.ok ()) ++ .error e :: post)
      = (List.range' i (n + 1), .error ⟨i + n, name, e⟩) := by
  intro n
  induction n with
  | zero => intro i e post; simp [jobExecuteGo, List.range']
  | succ n ih =>
    intro i e post
    have hn : i + 1 + n = i + (n + 1) := by omega
    simp only [List.replicate, List.cons_append, jobExecuteGo]
    simp [ih (i + 1), List.range'_succ, hn]

theorem jobExecuteGo_replicate_ok (name : String) :
    ∀ n i, jobExecuteGo name i (List.replicate n (.ok ()))
      = (List.range' i n, .ok ()) := by
  intro n
  induction n with
  | zero => intro i; simp [jobExecuteGo, List.range']
  | succ n ih =>
    intro i
    simp only [List.replicate, jobExecuteGo]
    simp [ih (i + 1), List.range'_succ]

/-- Claim C2 (Job fail-fast with context): a job runs its children
strictly in declaration order; with `n` succeeding children followed
by a failing one, exactly the children `0..n` execute (the failing
child included, later siblings never run) and the returned error
carries the failing child's index `n`, the job's name, and the
child's error (first conjunct); when every child succeeds, all
children run in order and the job succeeds (second conjunct). -/
theorem job_fail_fast :
    (∀ name n e post,
        jobExecute name (List.replicate n (Except.ok ()) ++ .error e :: post)
          = (List.range (n + 1), .error ⟨n, name, e⟩))
    ∧ (∀ name n, jobExecute name (List.replicate n (Except.ok ()))
        = (List.range n, .ok ())) := by
  constructor
  · intro name n e post
    rw [jobExecute, jobExecuteGo_replicate_err name n 0 e post,
      List.range_eq_range' (n + 1)]
    simp
  · intro name n
    rw [jobExecute, jobExecuteGo_replicate_ok name n 0, List.range_eq_range' n]

/-! ### Claim C3: SSH batch exit-code policy -/

/-- Embeds `SshCommand` from `tasks/ssh.rs`: one command string with
its allowed exit codes. -/
structure SshCommandT where
  command : String
  allowedExitCodes : List Int

/-- Embeds `SshTask` from `tasks/ssh.rs`. -/
structure SshTaskT where
  address : String
  user : String
  password : String
  commands : List SshCommandT

/-- The remote side of one SSH task execution, abstracted at the
library boundary: the outcome of `connect_ssh` for the single
connection of the batch, and for each command string the combined
output and remote exit status observed by `execute_on_session` (or
the channel error it returns). -/
structure SshEnv where
  connect : Except String Unit
  run : String → Except String (String × Int)

/-- One character of Rust's `Debug` escaping for strings (quotes,
backslashes and common control characters; other characters are kept
as themselves). -/
def escDebugChar (c : Char) : List Char :=
  if c = '"' then ['\\', '"']
  else if c = '\\' then ['\\', '\\']
  else if c = '\n' then ['\\', 'n']
  else if c = '\r' then ['\\', 'r']
  else if c = '\t' then ['\\', 't']
  else [c]

def escDebug (s : String) : String :=
  ⟨(s.data.map escDebugChar).flatten⟩

/-- Rust `Debug` rendering of a string: escaped, in double quotes. -/
def dq (s : String) : String :=
  "\"" ++ escDebug s ++ "\""

def debugIntList (l : List Int) : String :=
  "[" ++ String.intercalate ", " (l.map toString) ++ "]"

def debugStrList (l : List String) : String :=
  "[" ++ String.intercalate ", " (l.map dq) ++ "]"

/-- Rust `{:?}` rendering of an `SshCommand`. -/
def debugSshCommand (c : SshCommandT) : String :=
  "SshCommand \x7b command: " ++ dq c.command ++ ", allowed_exit_codes: "
    ++ debugIntList c.allowedExitCodes ++ " \x7d"

/-- The error produced when a remote exit status is outside the
command's allowed set: `SshCommand::execute`'s message, wrapped with
`SshTask::execute`'s per-command context. -/
def sshCommandFailMsg (c : SshCommandT) (code : Int) : String :=
  "failed to execute command via ssh: " ++ debugSshCommand c
    ++ ": Something went wrong while executing an command (`" ++ c.command
    ++ "`). Exit code " ++ toString code ++ "."

/-- Embeds the command loop of `SshTask::execute` plus
`SshCommand::execute`: commands run in order on the one session; each
observed exit status must be in that command's allowed set, otherwise
the loop aborts with the error above.  The returned list records the
commands actually executed, in order. -/
def sshGo (env : SshEnv) : List SshCommandT → List String × Except String Unit
  | [] => ([], .ok ())
  | c :: rest =>
    match env.run c.command with
    | .error e =>
      ([c.command], .error ("failed to execute command via ssh: "
        ++ debugSshCommand c ++ ": " ++ e))
    | .ok res =>
      if c.allowedExitCodes.contains res.2 then
        match sshGo env rest with
        | (tr, r) => (c.command :: tr, r)
      else
        ([c.command], .error (sshCommandFailMsg c res.2))

/-- Embeds `SshTask::execute`: one connection for the whole batch,
then the command loop. -/
def sshTaskExecute (t : SshTaskT) (env : SshEnv) :
    List String × Except String Unit :=
  match env.connect with
  | .error e => ([], .error ("failed to connect via ssh: " ++ e))
  | .ok _ => sshGo env t.commands

/-- Embeds the exit-code list elements of `parse_ssh_command`
(`as_i64` on each number). -/
def parseExitCodes : List Value → RResult (List Int)
  | [] => .ok []
  | v :: rest =>
    match v with
    | .number n => rbind (parseExitCodes rest) fun cs => .ok (n :: cs)
    | _ => .err "Ssh command exit_code is not a number"

/-- Embeds `parse_ssh_command` from `yaml_parser/mod.rs`: a bare
string is the shorthand with allowed exit codes `[0]`; the map form
requires a nested `command` map holding `command` and `exit_codes`.
(Source messages quoting key names with apostrophes are rendered here
without the quotes.) -/
def parseSshCommand (v : Value) : RResult SshCommandT :=
  match v with
  | .str s => .ok ⟨s, [0]⟩
  | .mapping m =>
    match getEntryStr m "command" with
    | some entryValue =>
      match entryValue with
      | .mapping commandMap =>
        (match getEntryStr commandMap "command" with
         | some ce =>
           match ce with
           | .str cmd =>
             (match getEntryStr commandMap "exit_codes" with
              | some ee =>
                match ee with
                | .sequence codes =>
                  rbind (parseExitCodes codes) fun cs => .ok ⟨cmd, cs⟩
                | _ => .err "Ssh command exit_codes is not a sequence"
              | none => .err "Ssh command missing key. Expected command")
           | _ => .err "Ssh command is not a string"
         | none => .err "Ssh command missing key. Expected command")
      | _ => .err "Ssh command is not a map"
    | none => .err "Ssh command has misleading key. Expected command"
  | _ => .err "command is not a string"

theorem sshGo_all_ok (env : SshEnv) :
    ∀ l, (∀ c ∈ l, ∃ o k, env.run c.command = .ok (o, k)
        ∧ k ∈ c.allowedExitCodes) →
      sshGo env l = (l.map SshCommandT.command, .ok ()) := by
  intro l
  induction l with
  | nil => intro _; rfl
  | cons c rest ih =>
    intro h
    obtain ⟨o, k, hr, hc⟩ := h c (List.mem_cons_self c rest)
    simp [sshGo, hr, hc, ih (fun d hd => h d (List.mem_cons_of_mem c hd))]

theorem sshGo_first_fail (env : SshEnv) :
    ∀ pre c post o code,
      (∀ d ∈ pre, ∃ o2 k, env.run d.command = .ok (o2, k)
        ∧ k ∈ d.allowedExitCodes) →
      env.run c.command = .ok (o, code) →
      code ∉ c.allowedExitCodes →
      sshGo env (pre ++ c :: post)
        = (pre.map SshCommandT.command ++ [c.command],
           .error (sshCommandFailMsg c code)) := by
  intro pre
  induction pre with
  | nil =>
    intro c post o code _ hr hc
    simp [sshGo, hr, hc]
  | cons d rest ih =>
    intro c post o code h hr hc
    obtain ⟨o2, k, hr2, hc2⟩ := h d (List.mem_cons_self d rest)
    simp [sshGo, hr2, hc2,
      ih c post o code (fun x hx => h x (List.mem_cons_of_mem d hx)) hr hc]

/-- Claim C3 (SSH batch exit-code policy): a bare-string command gets
allowed exit-code set `\x7b0\x7d` (first conjunct); over one connection the
commands run in declaration order, and if every observed exit status
is in its command's allowed set the batch succeeds having executed
every command (second conjunct); at the first command whose observed
status is outside its allowed set the batch stops — later commands
are not executed — with an error naming that command and the observed
code (third conjunct). -/
theorem ssh_batch_exit_policy :
    (∀ s, parseSshCommand (.str s) = .ok ⟨s, [0]⟩)
    ∧ (∀ t env, env.connect = .ok () →
        (∀ c ∈ t.commands, ∃ o k, env.run c.command = .ok (o, k)
          ∧ k ∈ c.allowedExitCodes) →
        sshTaskExecute t env = (t.commands.map SshCommandT.command, .ok ()))
    ∧ (∀ t env pre c post o code, env.connect = .ok () →
        t.commands = pre ++ c :: post →
        (∀ d ∈ pre, ∃ o2 k, env.run d.command = .ok (o2, k)
          ∧ k ∈ d.allowedExitCodes) →
        env.run c.command = .ok (o, code) →
        code ∉ c.allowedExitCodes →
        sshTaskExecute t env
          = (pre.map SshCommandT.command ++ [c.command],
             .error (sshCommandFailMsg c code))) := by
  refine ⟨fun s => rfl, ?_, ?_⟩
  · intro t env hc h
    rw [sshTaskExecute, hc]
    exact sshGo_all_ok env t.commands h
  · intro t env pre c post o code hcn hcmds h hr hcode
    rw [sshTaskExecute, hcn, hcmds]
    exact sshGo_first_fail env pre c post o code h hr hcode

/-- Witness for C3: a concrete three-command batch where the second
command exits 1 against allowed set `[0]` — the batch executes only
the first two commands and reports the failing command and code — and
a concrete all-passing batch. -/
theorem ssh_batch_exit_policy_witness :
    sshTaskExecute ⟨"1.2.3.4", "u", "p", [⟨"ls", [0]⟩, ⟨"boom", [0]⟩, ⟨"later", [0]⟩]⟩
        ⟨.ok (), fun cmd => if cmd = "boom" then .ok ("", 1) else .ok ("", 0)⟩
      = (["ls", "boom"], .error (sshCommandFailMsg ⟨"boom", [0]⟩ 1))
    ∧ sshTaskExecute ⟨"1.2.3.4", "u", "p", [⟨"a", [0]⟩, ⟨"b", [2]⟩]⟩
        ⟨.ok (), fun cmd => if cmd = "b" then .ok ("", 2) else .ok ("", 0)⟩
      = (["a", "b"], .ok ()) := by
  constructor
  · exact ssh_batch_exit_policy.2.2
      ⟨"1.2.3.4", "u", "p", [⟨"ls", [0]⟩, ⟨"boom", [0]⟩, ⟨"later", [0]⟩]⟩
      ⟨.ok (), fun cmd => if cmd = "boom" then .ok ("", 1) else .ok ("", 0)⟩
      [⟨"ls", [0]⟩] ⟨"boom", [0]⟩ [⟨"later", [0]⟩] "" 1 rfl rfl
      (by intro d hd; simp at hd; subst hd; exact ⟨"", 0, rfl, by simp⟩)
      rfl (by decide)
  · exact ssh_batch_exit_policy.2.1
      ⟨"1.2.3.4", "u", "p", [⟨"a", [0]⟩, ⟨"b", [2]⟩]⟩
      ⟨.ok (), fun cmd => if cmd = "b" then .ok ("", 2) else .ok ("", 0)⟩
      rfl
      (by intro c hc; simp at hc
          rcases hc with h | h <;> subst h
          · exact ⟨"", 0, rfl, by simp⟩
          · exact ⟨"", 2, rfl, by simp⟩)

/-! ### Claim C6: Shell exit-code policy -/

/-- Embeds `Bash` from `tasks/shell.rs`: split argv, optional working
directory, optional allowed exit codes. -/
structure BashT where
  args : List String
  workDir : Option String
  allowedExitCodes : Option (List Int)

/-- Embeds the exit-status policy of `Bash::execute` (`Cmd::execute`
is identical): the spawned process is abstracted to its observed
outcome — a spawn error, or `(status.code(), stderr)` where a missing
code (signal death) is `none`.  Success requires the exit code to be
in the configured list, or to be `0` when no list is configured. -/
def bashExecute (b : BashT) (spawn : Except String (Option Int × String)) :
    Except String Unit :=
  match spawn with
  | .error e => .error ("Failed while executing bash command: " ++ e)
  | .ok res =>
    match res.1 with
    | none => .error "process did not return an exit code"
    | some code =>
      if (match b.allowedExitCodes with
          | some codes => !(codes.contains code)
          | none => !(code == 0)) then
        .error ("Error: " ++ debugStrList b.args
          ++ " did not success and raised an error!\n" ++ res.2)
      else .ok ()

/-- Split of a character list on single spaces, accumulating the
current word; consecutive separators yield empty words, like Rust's
`split(' ')`. -/
def splitSpacesGo : List Char → List Char → List String
  | acc, [] => [⟨acc.reverse⟩]
  | acc, c :: cs =>
    if c = ' ' then ⟨acc.reverse⟩ :: splitSpacesGo [] cs
    else splitSpacesGo (c :: acc) cs

/-- Embeds the split of a shell command string on single spaces
(`command.split(' ')`, no quoting support). -/
def splitSpaces (s : String) : List String :=
  splitSpacesGo [] s.data

/-- Modelled from the spec: the parse of the shell task's map form
that feeds `tasks/shell.rs` is missing from `src` — the
`parse_shell_command_task` snapshots under `src` call
`ShellCommand::new` with two arguments while `tasks/shell.rs`
requires three, so they predate the `exit_codes` field.  Following
the spec — "either a bare string (split on single spaces into argv,
no quoting support) or a map with `command` (required string, same
splitting), `work_dir` (optional string), `exit_codes` (optional
non-empty list of integers; absence means success is exit code 0
only)". -/
def parseShellSpec (v : Value) :
    RResult (List String × Option String × Option (List Int)) :=
  match v with
  | .str s => .ok (splitSpaces s, none, none)
  | .mapping m =>
    match getEntryStr m "command" with
    | some cv =>
      match cv with
      | .str cmd =>
        (match getEntryStr m "work_dir" with
         | some wv =>
           (match wv with
            | .str w =>
              rbind (parseExitCodesSpec m) fun codes =>
                .ok (splitSpaces cmd, some w, codes)
            | _ => .err "work_dir is not a string")
         | none =>
           rbind (parseExitCodesSpec m) fun codes =>
             .ok (splitSpaces cmd, none, codes))
      | _ => .err "command is not a string"
    | none => .err "command is not given"
  | _ => .err "task has a problem with its definition"
where
  /-- Modelled from the spec: the optional `exit_codes` key — absent
  means `none`; present it must be a non-empty sequence of integers. -/
  parseExitCodesSpec (m : List (Value × Value)) : RResult (Option (List Int)) :=
    match getEntryStr m "exit_codes" with
    | none => .ok none
    | some ev =>
      match ev with
      | .sequence l =>
        match l with
        | [] => .err "exit_codes must be a non-empty list"
        | _ => rbind (parseExitCodes l) fun cs => .ok (some cs)
      | _ => .err "exit_codes is not a sequence"

/-- Claim C6 (Shell exit-code policy): with an `exit_codes` list
configured, a bash/cmd task succeeds iff the observed exit code is in
the list, and without one iff the exit code is 0 (first conjunct); in
particular with `exit_codes: [0, 2]` it succeeds on exit 2 (second
conjunct) and fails on exit 1 (third conjunct); the map form of the
shell task accepts `exit_codes` as an optional key (fourth and fifth
conjuncts). -/
theorem shell_exit_code_policy :
    (∀ b code serr,
        bashExecute b (.ok (some code, serr)) = .ok ()
          ↔ match b.allowedExitCodes with
            | some codes => code ∈ codes
            | none => code = 0)
    ∧ (∀ args wd serr,
        bashExecute ⟨args, wd, some [0, 2]⟩ (.ok (some 2, serr)) = .ok ())
    ∧ (∀ args wd serr,
        bashExecute ⟨args, wd, some [0, 2]⟩ (.ok (some 1, serr))
          = .error ("Error: " ++ debugStrList args
              ++ " did not success and raised an error!\n" ++ serr))
    ∧ parseShellSpec (.mapping [(.str "command", .str "ls -l"),
        (.str "exit_codes", .sequence [.number 0, .number 2])])
      = .ok (["ls", "-l"], none, some [0, 2])
    ∧ parseShellSpec (.mapping [(.str "command", .str "ls -l")])
      = .ok (["ls", "-l"], none, none) := by
  refine ⟨?_, ?_, ?_, ?_, ?_⟩
  · intro b code serr
    cases hA : b.allowedExitCodes with
    | some codes =>
      by_cases hc : code ∈ codes <;> simp [bashExecute, hA, hc]
    | none =>
      by_cases hc : code = 0 <;> simp [bashExecute, hA, hc]
  · intro args wd serr
    simp [bashExecute]
  · intro args wd serr
    simp [bashExecute]
  · rfl
  · rfl

/-! ### Claim C7: Password redaction -/

/-- Embeds Rust's `str::replace(p, m)`: scan left to right, replace
each leftmost non-overlapping occurrence of `p` by `m` and continue
after it.  One unit of fuel is spent per consumed character, so
`fuel = s.length` always suffices; the faithful cases are `p ≠ []`
(Rust's empty pattern matches between all characters instead). -/
def replaceGo (p m : List Char) : Nat → List Char → List Char
  | _, [] => []
  | 0, s => s
  | fuel + 1, c :: cs =>
    if p.isPrefixOf (c :: cs) then
      m ++ replaceGo p m fuel ((c :: cs).drop p.length)
    else
      c :: replaceGo p m fuel cs

/-- Embeds `format!(...).replace(&self.password, marker)` on strings. -/
def rustReplace (s p m : String) : String :=
  ⟨replaceGo p.data m.data s.data.length s.data⟩

/-- The fixed redaction marker of every remote task's `Display`. -/
def redactionMarker : String := "***Not displayed for security reasons***"

/-- Rust `{:?}` rendering of an `SshTask` (an `Ipv4Addr` debug-prints
bare, strings quoted and escaped, the command vector in brackets). -/
def debugSshTask (t : SshTaskT) : String :=
  "SshTask \x7b address: " ++ t.address ++ ", user: " ++ dq t.user
    ++ ", password: " ++ dq t.password ++ ", commands: ["
    ++ String.intercalate ", " (t.commands.map debugSshCommand) ++ "] \x7d"

/-- Embeds `Display for SshTask`: the debug rendering with every
occurrence of the password replaced by the redaction marker. -/
def sshTaskDisplay (t : SshTaskT) : String :=
  rustReplace (debugSshTask t) t.password redactionMarker

/-- Embeds the remote-transfer task record shared by the four
SCP/SFTP parse targets (`RemoteTransfer::new` in `tasks/ssh.rs`);
paths as the parsed strings. -/
structure RemoteTransferT where
  address : String
  user : String
  password : String
  remotePath : String
  localPath : String

/-- Rust `{:?}` rendering of a transfer task with the given struct
name (`ScpFileDownload`, `SftpDownload`, ...); `PathBuf` debug-prints
quoted. -/
def debugTransfer (name : String) (t : RemoteTransferT) : String :=
  name ++ " \x7b address: " ++ t.address ++ ", user: " ++ dq t.user
    ++ ", password: " ++ dq t.password ++ ", remote_path: " ++ dq t.remotePath
    ++ ", local_path: " ++ dq t.localPath ++ " \x7d"

/-- Embeds `Display` for the transfer tasks: debug rendering with the
password replaced by the redaction marker. -/
def transferDisplay (name : String) (t : RemoteTransferT) : String :=
  rustReplace (debugTransfer name t) t.password redactionMarker

/-- Substring occurrence as a computable check. -/
def containsSub (pat : List Char) : List Char → Bool
  | [] => pat.isEmpty
  | c :: cs => pat.isPrefixOf (c :: cs) || containsSub pat cs

theorem containsSub_iff (pat : List Char) :
    ∀ l, containsSub pat l = true ↔ pat <:+: l := by
  intro l
  induction l with
  | nil => simp [containsSub, List.infix_nil, List.isEmpty_iff]
  | cons c cs ih =>
    simp [containsSub, List.infix_cons_iff, List.isPrefixOf_iff_prefix, ih]

theorem replaceGo_prefix_pull (p m : List Char) (hm : m ≠ []) :
    ∀ fuel q s, q ≠ [] → (∀ a ∈ q, a ∉ m) →
      q <+: replaceGo p m fuel s → q <+: s := by
  intro fuel
  induction fuel with
  | zero =>
    intro q s _ _ h
    cases s with
    | nil => exact h
    | cons c cs => exact h
  | succ fuel ih =>
    intro q s hq hdq h
    cases s with
    | nil => exact h
    | cons c cs =>
      by_cases hpre : p.isPrefixOf (c :: cs) = true
      · rw [replaceGo, if_pos hpre] at h
        obtain ⟨qh, qt, rfl⟩ := List.exists_cons_of_ne_nil hq
        obtain ⟨mh, mt, rfl⟩ := List.exists_cons_of_ne_nil hm
        rw [List.cons_append, List.cons_prefix_cons] at h
        have hmem : qh ∈ mh :: mt := by
          rw [h.1]
          exact List.mem_cons_self mh mt
        exact absurd hmem (hdq qh (List.mem_cons_self qh qt))
      · rw [replaceGo, if_neg hpre] at h
        obtain ⟨qh, qt, rfl⟩ := List.exists_cons_of_ne_nil hq
        rw [List.cons_prefix_cons] at h
        rcases h with ⟨hqc, hqt⟩
        cases qt with
        | nil => exact List.cons_prefix_cons.mpr ⟨hqc, List.nil_prefix⟩
        | cons x xs =>
          have hxcs : (x :: xs) <+: cs :=
            ih (x :: xs) cs (by simp)
              (fun a ha => hdq a (List.mem_cons_of_mem qh ha)) hqt
          exact List.cons_prefix_cons.mpr ⟨hqc, hxcs⟩

theorem infix_append_of_disjoint (p : List Char) (hp : p ≠ []) :
    ∀ m r, (∀ a ∈ p, a ∉ m) → p <:+: m ++ r → p <:+: r := by
  intro m
  induction m with
  | nil => intro r _ h; simpa using h
  | cons a m2 ih =>
    intro r hd h
    rw [List.cons_append, List.infix_cons_iff] at h
    rcases h with h | h
    · obtain ⟨ph, pt, rfl⟩ := List.exists_cons_of_ne_nil hp
      rw [List.cons_prefix_cons] at h
      have hmem : ph ∈ a :: m2 := by
        rw [h.1]
        exact List.mem_cons_self a m2
      exact absurd hmem (hd ph (List.mem_cons_self ph pt))
    · exact ih r (fun x hx hmem => hd x hx (List.mem_cons_of_mem a hmem)) h

/-- With a non-empty pattern sharing no character with the non-empty
replacement, the replaced text contains no occurrence of the pattern. -/
theorem replaceGo_no_occurrence (p m : List Char) (hp : p ≠ []) (hm : m ≠ [])
    (hd : ∀ a ∈ p, a ∉ m) :
    ∀ fuel s, s.length ≤ fuel → ¬ p <:+: replaceGo p m fuel s := by
  intro fuel
  induction fuel with
  | zero =>
    intro s hs h
    have hnil : s = [] := List.eq_nil_of_length_eq_zero (Nat.le_zero.mp hs)
    subst hnil
    exact hp (List.infix_nil.mp h)
  | succ fuel ih =>
    intro s hs h
    cases s with
    | nil => exact hp (List.infix_nil.mp h)
    | cons c cs =>
      by_cases hpre : p.isPrefixOf (c :: cs) = true
      · rw [replaceGo, if_pos hpre] at h
        have h2 := infix_append_of_disjoint p hp m _ hd h
        have hp1 : 1 ≤ p.length := by
          cases p with
          | nil => exact absurd rfl hp
          | cons a b => simp
        have hlen : ((c :: cs).drop p.length).length ≤ fuel := by
          rw [List.length_drop]
          simp only [List.length_cons] at hs ⊢
          omega
        exact ih _ hlen h2
      · rw [replaceGo, if_neg hpre] at h
        rw [List.infix_cons_iff] at h
        rcases h with h | h
        · obtain ⟨ph, pt, rfl⟩ := List.exists_cons_of_ne_nil hp
          rw [List.cons_prefix_cons] at h
          rcases h with ⟨hphc, hpt⟩
          cases pt with
          | nil =>
            apply hpre
            rw [List.isPrefixOf_iff_prefix]
            exact List.cons_prefix_cons.mpr ⟨hphc, List.nil_prefix⟩
          | cons x xs =>
            have hxcs : (x :: xs) <+: cs :=
              replaceGo_prefix_pull (ph :: x :: xs) m hm fuel (x :: xs) cs (by simp)
                (fun a ha => hd a (List.mem_cons_of_mem ph ha)) hpt
            apply hpre
            rw [List.isPrefixOf_iff_prefix]
            exact List.cons_prefix_cons.mpr ⟨hphc, hxcs⟩
        · have hlen : cs.length ≤ fuel := by
            simp only [List.length_cons] at hs
            omega
          exact ih cs hlen h

/-- Wherever the pattern occurred, the replacement appears in the
replaced text. -/
theorem replaceGo_marker (p m : List Char) (hp : p ≠ []) :
    ∀ fuel s, s.length ≤ fuel → p <:+: s → m <:+: replaceGo p m fuel s := by
  intro fuel
  induction fuel with
  | zero =>
    intro s hs h
    have hnil : s = [] := List.eq_nil_of_length_eq_zero (Nat.le_zero.mp hs)
    subst hnil
    exact absurd (List.infix_nil.mp h) hp
  | succ fuel ih =>
    intro s hs h
    cases s with
    | nil => exact absurd (List.infix_nil.mp h) hp
    | cons c cs =>
      by_cases hpre : p.isPrefixOf (c :: cs) = true
      · rw [replaceGo, if_pos hpre]
        exact ⟨[], replaceGo p m fuel ((c :: cs).drop p.length), by simp⟩
      · rw [replaceGo, if_neg hpre]
        rw [List.infix_cons_iff] at h
        rcases h with h | h
        · exact absurd (List.isPrefixOf_iff_prefix.mpr h) hpre
        · have hlen : cs.length ≤ fuel := by
            simp only [List.length_cons] at hs
            omega
          exact List.infix_cons (ih cs hlen h)

theorem string_data_ne_nil {s : String} (h : s ≠ "") : s.data ≠ [] := by
  intro hd
  apply h
  cases s with
  | mk l =>
    cases hd
    rfl

/-- Claim C7, amended: the rendered `Display` description of an SSH
or transfer task is the raw debug rendering with every leftmost
non-overlapping occurrence of the configured password replaced by the
fixed redaction marker; hence every occurrence of the password — from
whatever field — is substituted and the marker appears where the
password occurred; the description is guaranteed not to contain the
password when the password is non-empty and shares no character with
the marker (a password occurring inside the marker text itself, such
as `security`, survives in the output — see the counterexample). -/
theorem password_redaction_amended :
    (∀ t : SshTaskT, t.password ≠ "" →
        (∀ c ∈ t.password.data, c ∉ redactionMarker.data) →
        containsSub t.password.data (sshTaskDisplay t).data = false
        ∧ (containsSub t.password.data (debugSshTask t).data = true →
            containsSub redactionMarker.data (sshTaskDisplay t).data = true))
    ∧ (∀ name (t : RemoteTransferT), t.password ≠ "" →
        (∀ c ∈ t.password.data, c ∉ redactionMarker.data) →
        containsSub t.password.data (transferDisplay name t).data = false
        ∧ (containsSub t.password.data (debugTransfer name t).data = true →
            containsSub redactionMarker.data (transferDisplay name t).data = true)) := by
  have hm : redactionMarker.data ≠ [] := by decide
  constructor
  · intro t hpw hd
    have hp := string_data_ne_nil hpw
    constructor
    · cases hcb : containsSub t.password.data (sshTaskDisplay t).data with
      | false => rfl
      | true =>
        exact absurd ((containsSub_iff _ _).mp hcb)
          (replaceGo_no_occurrence _ _ hp hm hd _ _ le_rfl)
    · intro hdbg
      rw [containsSub_iff] at hdbg ⊢
      exact replaceGo_marker _ _ hp _ _ le_rfl hdbg
  · intro name t hpw hd
    have hp := string_data_ne_nil hpw
    constructor
    · cases hcb : containsSub t.password.data (transferDisplay name t).data with
      | false => rfl
      | true =>
        exact absurd ((containsSub_iff _ _).mp hcb)
          (replaceGo_no_occurrence _ _ hp hm hd _ _ le_rfl)
    · intro hdbg
      rw [containsSub_iff] at hdbg ⊢
      exact replaceGo_marker _ _ hp _ _ le_rfl hdbg

/-- Counterexample for C7 as stated: the task with password
`security` — a substring of the redaction marker — renders to a
description that still contains `security` as a literal substring,
because the substitution inserts the marker text. -/
theorem password_redaction_counterexample :
    containsSub "security".data
      (sshTaskDisplay ⟨"1.2.3.4", "root", "security", []⟩).data = true := by
  decide

/-- Witness for C7 (amended): the digit password `12345` shares no
character with the marker, so the rendered description contains no
occurrence of it and carries the marker where it stood. -/
theorem password_redaction_amended_witness :
    containsSub "12345".data
        (sshTaskDisplay ⟨"1.2.3.4", "root", "12345", []⟩).data = false
    ∧ containsSub redactionMarker.data
        (sshTaskDisplay ⟨"1.2.3.4", "root", "12345", []⟩).data = true := by
  have h := password_redaction_amended.1 ⟨"1.2.3.4", "root", "12345", []⟩
    (by decide) (by decide)
  exact ⟨h.1, h.2 (by decide)⟩

/-! ### Claim C8: SFTP pre-condition checks -/

/-- Result of `sftp.stat` on an existing remote path. -/
structure RStat where
  isFile : Bool
  isDir : Bool

/-- Embeds `SftpDownload`/`SftpUpload` from `tasks/ssh.rs`; paths are
modelled as component lists (`PathBuf::join` appends a component,
`file_name` is the last component, `parent` drops it). -/
structure SftpTask where
  address : String
  user : String
  password : String
  remotePath : List String
  localPath : List String

/-- The remote host and local filesystem as one SFTP task execution
observes them: connection and subsystem outcomes, `sftp.stat` per
remote path, and the local `is_file`/`is_dir` checks. -/
structure SftpEnv where
  connect : Except String Unit
  sftpSub : Except String Unit
  remoteStat : List String → Except String RStat
  localIsFile : List String → Bool
  localIsDir : List String → Bool

/-- Filesystem mutations issued by an SFTP transfer, in order.  The
recursive tree mirroring (`download_sftp_dir`, `upload_sftp_directory`)
is represented by one action for the whole subtree: claim C8 concerns
only the pre-checks that run before any write is issued. -/
inductive FsAction where
  | createLocalDir (p : List String)
  | downloadFile (localP remoteP : List String)
  | downloadDirInto (localP remoteP : List String)
  | uploadFile (localP remoteP : List String)
  | createRemoteDir (p : List String)
  | uploadDirInto (localP remoteP : List String)

def pathStr (p : List String) : String :=
  String.intercalate "/" p

def parentPath (p : List String) : List String :=
  p.dropLast

/-- Embeds `SftpDownload::execute`: stat the remote path; for a
remote file, refuse an existing local file, descend into an existing
local directory under the remote basename, else download directly;
for a remote directory, refuse an existing local directory, require
the local parent, then create the directory and mirror the tree.
Returns the actions issued (in order) next to the outcome. -/
def sftpDownloadExecute (t : SftpTask) (env : SftpEnv) :
    List FsAction × RResult Unit :=
  match env.connect with
  | .error e => ([], .err ("Failed to connect via ssh: " ++ e))
  | .ok _ =>
    match env.sftpSub with
    | .error e => ([], .err ("Could not create sftp subsystem: " ++ e))
    | .ok _ =>
      match env.remoteStat t.remotePath with
      | .error e =>
        ([], .err ("Error while getting stats of remote_path("
          ++ pathStr t.remotePath ++ "): " ++ e))
      | .ok stat =>
        if stat.isFile then
          if env.localIsFile t.localPath then
            ([], .err ("File " ++ pathStr t.localPath ++ " already exists"))
          else if env.localIsDir t.localPath then
            match t.remotePath.getLast? with
            | some bname =>
              ([.downloadFile (t.localPath ++ [bname]) t.remotePath], .ok ())
            | none => ([], .fatal "called Option.unwrap on a None value")
          else
            ([.downloadFile t.localPath t.remotePath], .ok ())
        else if stat.isDir then
          if env.localIsDir t.localPath then
            ([], .err "Directory already exists")
          else if !(env.localIsDir (parentPath t.localPath)) then
            ([], .err ("Path " ++ pathStr (parentPath t.localPath)
              ++ " does not exist"))
          else
            ([.createLocalDir t.localPath,
              .downloadDirInto t.localPath t.remotePath], .ok ())
        else
          ([], .err ("Remote path " ++ pathStr t.remotePath
            ++ " does not exist"))

/-- Embeds `SftpUpload::execute`: the local path must exist; a local
file is uploaded directly; for a local directory the remote path must
not already stat, then the remote directory is created and the tree
mirrored. -/
def sftpUploadExecute (t : SftpTask) (env : SftpEnv) :
    List FsAction × RResult Unit :=
  if !(env.localIsDir t.localPath) && !(env.localIsFile t.localPath) then
    ([], .err ("Local " ++ pathStr t.localPath ++ " does not exists"))
  else
    match env.connect with
    | .error e => ([], .err ("Error while connect via ssh: " ++ e))
    | .ok _ =>
      match env.sftpSub with
      | .error e => ([], .err ("Could not create sftp subsystem: " ++ e))
      | .ok _ =>
        if env.localIsFile t.localPath then
          ([.uploadFile t.localPath t.remotePath], .ok ())
        else
          match env.remoteStat t.remotePath with
          | .ok _ =>
            ([], .err ("Remote path " ++ pathStr t.remotePath
              ++ " already exists"))
          | .error _ =>
            ([.createRemoteDir t.remotePath,
              .uploadDirInto t.localPath t.remotePath], .ok ())

/-- Claim C8 (SFTP pre-condition checks): for a remote file, an
existing local file aborts the download with an already-exists error
and no action issued (first conjunct); an existing local directory
receives the file under `local_path/remote_basename` (second
conjunct); otherwise the file goes directly to `local_path` (third
conjunct); uploading a local directory to a remote path that already
stats fails with an already-exists error before any write action is
issued (fourth conjunct). -/
theorem sftp_precondition_checks :
    (∀ t env stat, env.connect = .ok () → env.sftpSub = .ok () →
        env.remoteStat t.remotePath = .ok stat → stat.isFile = true →
        env.localIsFile t.localPath = true →
        sftpDownloadExecute t env
          = ([], .err ("File " ++ pathStr t.localPath ++ " already exists")))
    ∧ (∀ t env stat b, env.connect = .ok () → env.sftpSub = .ok () →
        env.remoteStat t.remotePath = .ok stat → stat.isFile = true →
        env.localIsFile t.localPath = false →
        env.localIsDir t.localPath = true →
        t.remotePath.getLast? = some b →
        sftpDownloadExecute t env
          = ([.downloadFile (t.localPath ++ [b]) t.remotePath], .ok ()))
    ∧ (∀ t env stat, env.connect = .ok () → env.sftpSub = .ok () →
        env.remoteStat t.remotePath = .ok stat → stat.isFile = true →
        env.localIsFile t.localPath = false →
        env.localIsDir t.localPath = false →
        sftpDownloadExecute t env
          = ([.downloadFile t.localPath t.remotePath], .ok ()))
    ∧ (∀ t env stat, env.localIsFile t.localPath = false →
        env.localIsDir t.localPath = true →
        env.connect = .ok () → env.sftpSub = .ok () →
        env.remoteStat t.remotePath = .ok stat →
        sftpUploadExecute t env
          = ([], .err ("Remote path " ++ pathStr t.remotePath
              ++ " already exists"))) := by
  refine ⟨?_, ?_, ?_, ?_⟩
  · intro t env stat hc hs hr hf hl
    simp [sftpDownloadExecute, hc, hs, hr, hf, hl]
  · intro t env stat b hc hs hr hf hlf hld hb
    simp [sftpDownloadExecute, hc, hs, hr, hf, hlf, hld, hb]
  · intro t env stat hc hs hr hf hlf hld
    simp [sftpDownloadExecute, hc, hs, hr, hf, hlf, hld]
  · intro t env stat hlf hld hc hs hr
    simp [sftpUploadExecute, hc, hs, hr, hlf, hld]

/-- Witness for C8: concrete environments exercising the
already-exists refusal on download and on directory upload. -/
theorem sftp_precondition_checks_witness :
    sftpDownloadExecute ⟨"1.2.3.4", "u", "p", ["r", "f.txt"], ["l", "f.txt"]⟩
        ⟨.ok (), .ok (), fun _ => .ok ⟨true, false⟩, fun _ => true, fun _ => false⟩
      = ([], .err ("File " ++ pathStr ["l", "f.txt"] ++ " already exists"))
    ∧ sftpUploadExecute ⟨"1.2.3.4", "u", "p", ["r", "d"], ["l", "d"]⟩
        ⟨.ok (), .ok (), fun _ => .ok ⟨false, true⟩, fun _ => false, fun _ => true⟩
      = ([], .err ("Remote path " ++ pathStr ["r", "d"] ++ " already exists")) :=
  ⟨sftp_precondition_checks.1
      ⟨"1.2.3.4", "u", "p", ["r", "f.txt"], ["l", "f.txt"]⟩
      ⟨.ok (), .ok (), fun _ => .ok ⟨true, false⟩, fun _ => true, fun _ => false⟩
      ⟨true, false⟩ rfl rfl rfl rfl rfl,
   sftp_precondition_checks.2.2.2
      ⟨"1.2.3.4", "u", "p", ["r", "d"], ["l", "d"]⟩
      ⟨.ok (), .ok (), fun _ => .ok ⟨false, true⟩, fun _ => false, fun _ => true⟩
      ⟨false, true⟩ rfl rfl rfl rfl rfl⟩

/-! ### Claim C10: parse_task consults only the first mapping entry -/

inductive OSKind where
  | windows
  | linux

/-- The typed task tree built by the parser (`Box<dyn Task>` targets
of `parse_task` in `yaml_parser/mod.rs`); the shell cases carry the
two fields the `src` snapshot of `parse_shell_command_task` parses. -/
inductive PTask where
  | pjob (name : String) (children : List PTask)
  | pbash (args : List String) (workDir : Option String)
  | pcmd (args : List String) (workDir : Option String)
  | posDependent (os : OSKind) (children : List PTask)
  | pssh (t : SshTaskT)
  | pscpDownload (t : RemoteTransferT)
  | pscpUpload (t : RemoteTransferT)
  | psftpDownload (t : RemoteTransferT)
  | psftpUpload (t : RemoteTransferT)
  | pprint (s : String)

/-- Numeric value of a digit string. -/
def digitsVal (l : List Char) : Nat :=
  l.foldl (fun a c => a * 10 + (c.toNat - 48)) 0

/-- One dotted quad component as accepted by Rust's
`Ipv4Addr::from_str`: non-empty digits, no leading zero, at most 255. -/
def ipv4PartOk (s : String) : Bool :=
  !s.data.isEmpty
    && s.data.all Char.isDigit
    && (match s.data with
        | '0' :: _ :: _ => false
        | _ => true)
    && decide (digitsVal s.data ≤ 255)

/-- Embeds the `Ipv4Addr::from_str` validation used when parsing the
`address` field. -/
def ipv4Valid (s : String) : Bool :=
  (s.splitOn ".").length == 4 && (s.splitOn ".").all ipv4PartOk

/-- Embeds `parse_print` from `yaml_parser/mod.rs`. -/
def parsePrint (v : Value) : RResult String :=
  match v with
  | .str prompt => .ok prompt
  | _ => .err "print value is not a string"

/-- Embeds `parse_remote_transfer` from `yaml_parser/mod.rs`:
`username`, `password`, `address` (validated as IPv4), `remote_path`,
`local_path`, all required strings. -/
def parseRemoteTransfer (v : Value) : RResult RemoteTransferT :=
  match v with
  | .mapping m =>
    (match getEntryStr m "username" with
     | some (.str user) =>
       (match getEntryStr m "password" with
        | some (.str pass) =>
          (match getEntryStr m "address" with
           | some (.str addr) =>
             if ipv4Valid addr then
               (match getEntryStr m "remote_path" with
                | some (.str rp) =>
                  (match getEntryStr m "local_path" with
                   | some (.str lp) => .ok ⟨addr, user, pass, rp, lp⟩
                   | some _ => .err "local_path is not a string"
                   | none => .err "local_path is not given")
                | some _ => .err "remote_path is not a string"
                | none => .err "remote_path is not given")
             else .err "invalid IPv4 address syntax"
           | some _ => .err "address is not a string"
           | none => .err "address is not given")
        | some _ => .err "password is not a string"
        | none => .err "password is not given")
     | some _ => .err "username is not a string"
     | none => .err "username is not given")
  | _ => .err "Value is not of type Mapping"

/-- Embeds the command loop of `parse_ssh`. -/
def parseSshCommands : List Value → RResult (List SshCommandT)
  | [] => .ok []
  | v :: rest =>
    rbind (parseSshCommand v) fun c =>
      rbind (parseSshCommands rest) fun cs => .ok (c :: cs)

/-- Embeds `parse_ssh` from `yaml_parser/mod.rs`. -/
def parseSsh (v : Value) : RResult SshTaskT :=
  match v with
  | .mapping m =>
    (match getEntryStr m "username" with
     | some (.str user) =>
       (match getEntryStr m "password" with
        | some (.str pass) =>
          (match getEntryStr m "address" with
           | some (.str addr) =>
             if ipv4Valid addr then
               (match getEntryStr m "commands" with
                | some (.sequence cmds) =>
                  rbind (parseSshCommands cmds) fun cs =>
                    .ok ⟨addr, user, pass, cs⟩
                | some _ => .err "commands are not a sequence"
                | none => .err "commands are not given")
             else .err "invalid IPv4 address syntax"
           | some _ => .err "address is not a string"
           | none => .err "address is not given")
        | some _ => .err "password is not a string"
        | none => .err "password is not given")
     | some _ => .err "username is not a string"
     | none => .err "username is not given")
  | _ => .err "Value is not of type Mapping"

/-- Embeds `parse_shell_command_task` as it stands under `src`: the
map form parses only `command` (required string, split on single
spaces) and `work_dir` (optional; its wrong-type message is the
source's own, reused `command is not a string`); the bare string is
the shorthand.  The `exit_codes` key handled by `parseShellSpec` is
not parsed by this snapshot. -/
def parseShellCommandTask (v : Value) : RResult (List String × Option String) :=
  match v with
  | .mapping cmdMap =>
    (match getEntryStr cmdMap "command" with
     | some (.str cmd) =>
       (match getEntryStr cmdMap "work_dir" with
        | some (.str w) => .ok (splitSpaces cmd, some w)
        | some _ => .err "command is not a string"
        | none => .ok (splitSpaces cmd, none))
     | some _ => .err "command is not a string"
     | none => .err "command is not given")
  | .str s => .ok (splitSpaces s, none)
  | _ => .err "task has a problem with its definition"

/-- Wraps a sub-parser's result with the per-kind context message of
`parse_task` and injects the parsed value into the task tree. -/
def taskCtx {α : Type} (c : String) (r : RResult α) (g : α → PTask) :
    RResult PTask :=
  match r with
  | .ok a => .ok (g a)
  | .err e => .err (c ++ ": " ++ e)
  | .fatal m => .fatal m
  | .fuelOut => .fuelOut

/-- Embeds the task-spec loop shared by `parse_job` and
`parse_os_dependent`; `pt` is `parse_task` at the next fuel level. -/
def parseTaskListWith (pt : Value → RResult PTask) :
    List Value → RResult (List PTask)
  | [] => .ok []
  | v :: rest =>
    rbind (pt v) fun t =>
      rbind (parseTaskListWith pt rest) fun ts => .ok (t :: ts)

/-- Embeds `parse_job` from `yaml_parser/mod.rs`: look the job name
up in the root mapping, require a sequence, parse every child task
(the first failing child's error is wrapped with the job name). -/
def parseJobWith (pt : Value → RResult PTask) (root : List (Value × Value))
    (name : String) : RResult PTask :=
  match getEntryStr root name with
  | none => .err "Job not found"
  | some entry =>
    match entry with
    | .sequence children =>
      (match parseTaskListWith pt children with
       | .ok ts => .ok (.pjob name ts)
       | .err e => .err ("Error while parsing job " ++ name ++ ": " ++ e)
       | .fatal m => .fatal m
       | .fuelOut => .fuelOut)
    | _ => .err ("Child of " ++ name ++ " is not a sequence")

/-- Embeds `parse_os_dependent` (the source interpolates the
partially built task's display into the error message; the message is
kept without that rendering). -/
def parseOsDependentWith (pt : Value → RResult PTask) (os : OSKind)
    (v : Value) : RResult PTask :=
  match v with
  | .sequence children =>
    (match parseTaskListWith pt children with
     | .ok ts => .ok (.posDependent os ts)
     | .err e => .err ("could not parse child task: " ++ e)
     | .fatal m => .fatal m
     | .fuelOut => .fuelOut)
  | _ => .err "value is not a sequence"

/-- Embeds `parse_task` from `yaml_parser/mod.rs`, with fuel bounding
the job-reference recursion (the source has no cycle detection): a
bare string is a job reference resolved against the same root
mapping; a mapping is dispatched on its *first* key-value entry
(`.into_iter().next()`), an empty mapping falls through to `Task
could not be parsed`; anything else is a shape error.  The `on-linux`
branch reuses the `on-windows` context message, as in the source. -/
def parseTask : Nat → List (Value × Value) → Value → RResult PTask
  | 0, _, _ => .fuelOut
  | f + 1, root, v =>
    match v with
    | .str s =>
      (match parseJobWith (parseTask f root) root s with
       | .ok j => .ok j
       | .err e => .err ("parsing error for task " ++ s ++ ": " ++ e)
       | .fatal m => .fatal m
       | .fuelOut => .fuelOut)
    | .mapping entries =>
      (match entries with
       | [] => .err "Task could not be parsed"
       | (k, tv) :: _ =>
         match k with
         | .str kind =>
           (match kind with
            | "bash" =>
              taskCtx "Error with bash task" (parseShellCommandTask tv)
                (fun p => .pbash p.1 p.2)
            | "cmd" =>
              taskCtx "Error with cmd task" (parseShellCommandTask tv)
                (fun p => .pcmd p.1 p.2)
            | "on-windows" =>
              taskCtx "parsing Error in on-windows"
                (parseOsDependentWith (parseTask f root) .windows tv) id
            | "on-linux" =>
              taskCtx "parsing Error in on-windows"
                (parseOsDependentWith (parseTask f root) .linux tv) id
            | "ssh" => taskCtx "Parsing Error in ssh" (parseSsh tv) PTask.pssh
            | "scp-download" =>
              taskCtx "Parsing Error in scp-download" (parseRemoteTransfer tv)
                PTask.pscpDownload
            | "scp-upload" =>
              taskCtx "Parsing Error in scp-upload" (parseRemoteTransfer tv)
                PTask.pscpUpload
            | "sftp-download" =>
              taskCtx "Parsing Error in sftp-download" (parseRemoteTransfer tv)
                PTask.psftpDownload
            | "sftp-upload" =>
              taskCtx "Parsing Error in sftp-upload" (parseRemoteTransfer tv)
                PTask.psftpUpload
            | "print" => taskCtx "Parsing Error in print" (parsePrint tv) PTask.pprint
            | _ => .err "unrecognized task in")
         | _ => .err "task has an issue with the name")
    | _ => .err "Parsing error with task. Task is not of type Mapping!"

/-- Claim C10 (first-entry dispatch): a mapping task specification is
parsed exactly as if it contained only its first key-value entry —
additional entries are silently ignored, causing neither an error nor
extra tasks (first conjunct) — and an empty mapping fails with a
parse error (second conjunct). -/
theorem parse_task_first_entry :
    (∀ f root k tv rest,
        parseTask (f + 1) root (.mapping ((k, tv) :: rest))
          = parseTask (f + 1) root (.mapping [(k, tv)]))
    ∧ (∀ f root, parseTask (f + 1) root (.mapping [])
        = .err "Task could not be parsed") :=
  ⟨fun _ _ _ _ _ => rfl, fun _ _ => rfl⟩
